import Mathlib

/-!
Verification of the program-structure composition engine of the
handbook-scraper backend (`server/routers/programs.py`).

The Python source is shallowly embedded:

* Python `dict`s (insertion ordered, update-in-place on existing keys)
  are association lists `List (String × α)` manipulated through
  `alInsert` / `alFind?` / `alUnion`, which mirror `d[k] = v`, `d[k]` /
  `d.get(k)` and `d1 | d2`.
* Python exceptions (`KeyError`, `IndexError`, `TypeError`,
  `fastapi.HTTPException`) are an explicit `Except PyErr` result.
* The external collaborators (Mongo collections, the course search used
  by `regex_search`, the gen-ed pool file) are parameters of the
  embedded functions, as dictated by their call sites.
* String operations (`in`, `.endswith`, `.split`, `.lower`, `re.match`
  with the course-code pattern) are re-implemented executably over
  `List Char` so that every definition evaluates inside the kernel.
-/

/-! ## Python string primitives -/

/-- Executable prefix test on character lists. -/
def listIsPrefix : List Char → List Char → Bool
  | [], _ => true
  | _ :: _, [] => false
  | a :: as, b :: bs => decide (a = b) && listIsPrefix as bs

/-- Executable substring test on character lists: the needle is a prefix
of some suffix of the haystack. -/
def listInfix (needle : List Char) : List Char → Bool
  | [] => listIsPrefix needle []
  | c :: rest => listIsPrefix needle (c :: rest) || listInfix needle rest

/-- Python `needle in haystack` for strings: substring containment. -/
def pyInStr (needle haystack : String) : Bool :=
  listInfix needle.toList haystack.toList

/-- Python `s.endswith(suffix)`: the reversed suffix is a prefix of the
reversed string. -/
def pyEndsWith (s suffix : String) : Bool :=
  listIsPrefix suffix.toList.reverse s.toList.reverse

/-- Python `s.lower()` (ASCII case folding, which is all the source needs). -/
def pyLower (s : String) : String :=
  String.mk (s.toList.map Char.toLower)

/-- Worker for `pySplit`.  The `fuel` argument only makes the recursion
structural; every step consumes at least one character, so
`fuel = length + 1` (as supplied by `pySplit`) never runs out.  Scanning is
left to right; at each position that starts an occurrence of the separator
the accumulated chunk is emitted and the separator skipped, exactly like
Python `str.split` with a non-empty separator. -/
def pySplitCore (s0 : Char) (srest : List Char) : Nat → List Char → List Char → List (List Char)
  | 0, l, acc => [acc.reverse ++ l]
  | fuel + 1, l, acc =>
    match l with
    | [] => [acc.reverse]
    | c :: cs =>
      if listIsPrefix (s0 :: srest) (c :: cs) then
        acc.reverse :: pySplitCore s0 srest fuel (cs.drop srest.length) []
      else
        pySplitCore s0 srest fuel cs (c :: acc)

/-- Python `s.split(sep)` for a non-empty separator (the source only splits
on `" or "` and `"+"`).  The empty-separator case never arises and is mapped
to the identity chunking. -/
def pySplit (sep s : String) : List String :=
  match sep.toList with
  | [] => [s]
  | s0 :: srest => (pySplitCore s0 srest (s.toList.length + 1) s.toList []).map String.mk

/-- Python `re.match(r"[A-Z]{4}[0-9]{4}", s)`: `re.match` anchors at the
start only, so this is a prefix test for four ASCII uppercase letters
followed by four ASCII digits. -/
def matchesCourseCodePattern (s : String) : Bool :=
  match s.toList with
  | a :: b :: c :: d :: e :: f :: g :: h :: _ =>
    a.isUpper && b.isUpper && c.isUpper && d.isUpper &&
    e.isDigit && f.isDigit && g.isDigit && h.isDigit
  | _ => false

/-! ## Python dicts as insertion-ordered association lists -/

/-- Python `d[k] = v`: update in place when the key exists (keeping its
position), otherwise append at the end. -/
def alInsert {α : Type} : List (String × α) → String → α → List (String × α)
  | [], k, v => [(k, v)]
  | (k', v') :: rest, k, v =>
    if k' = k then (k, v) :: rest else (k', v') :: alInsert rest k v

/-- Python `d.get(k)` / guarded `d[k]`. -/
def alFind? {α : Type} : List (String × α) → String → Option α
  | [], _ => none
  | (k', v') :: rest, k => if k' = k then some v' else alFind? rest k

/-- Python `list(d.keys())`. -/
def alKeys {α : Type} (d : List (String × α)) : List String :=
  d.map Prod.fst

/-- Python `d1 | d2` (PEP 584): left dict updated by every entry of the
right dict, right-hand values winning on common keys. -/
def alUnion {α : Type} (d1 d2 : List (String × α)) : List (String × α) :=
  d2.foldl (fun acc p => alInsert acc p.1 p.2) d1

/-- A Python dict display / comprehension built from a list of pairs in
order (later duplicates overwrite earlier ones). -/
def dictFromPairs {α : Type} (ps : List (String × α)) : List (String × α) :=
  ps.foldl (fun acc p => alInsert acc p.1 p.2) []

/-! ## Errors and the data model -/

/-- The Python exceptions the embedded code can raise.  `http` stands for
`fastapi.HTTPException(status_code, detail)`. -/
inductive PyErr where
  | keyError
  | indexError
  | typeError
  | http (status : Nat) (detail : String)
deriving DecidableEq

/-- A course description as it appears in curriculum data:
`str | list[str]`. -/
inductive Desc where
  | s (v : String)
  | l (vs : List String)
deriving DecidableEq

/-- Modelled from the spec: `data.processors.models.ProgramContainer` /
`CourseContainer` are not under `src/`; §3 of the spec ("ContainerSpec")
and the `container.get(...)` call sites give its shape.  Every field the
source reads with `.get` is optional. `courses` maps an object spec to its
description. -/
structure ContainerSpec where
  title : Option String
  type : Option String
  credits_to_complete : Option Int
  courses : Option (List (String × Desc))
  notes : Option String
deriving DecidableEq

/-- Modelled from the spec: `data.processors.models.Specialisation` is not
under `src/`; the source reads `spnResult["name"]` and
`spnResult["curriculum"]` (a sequence of containers). -/
structure Specialisation where
  name : String
  curriculum : List ContainerSpec
deriving DecidableEq

/-- Modelled from the spec: `data.processors.models.Program` is not under
`src/`; the source reads `programsResult["UOC"]` and
`programsResult['components']['non_spec_data']` (guarded by
`suppress(KeyError)`, hence optional — `none` stands for either missing
key). -/
structure Program where
  UOC : Int
  non_spec_data : Option (List ContainerSpec)
deriving DecidableEq

/-- `server.routers.model.ContainerContent`. -/
structure ContainerContent where
  UOC : Int
  courses : List (String × Desc)
  type : String
  notes : String
deriving DecidableEq

/-- `server.routers.model.StructureContainer`. -/
structure StructureContainer where
  name : String
  content : List (String × ContainerContent)
deriving DecidableEq

/-- The structure being composed: `dict[str, StructureContainer]`. -/
abbrev Structure := List (String × StructureContainer)

/-! ## SubgroupResolver (`convert_subgroup_object_to_courses_dict`) -/

/-- The `" or "` branch of `convert_subgroup_object_to_courses_dict`:
`{c: description[index] for index, c in enumerate(object.split(" or "))}`.
`description[index]` is an unguarded list indexing, hence `IndexError`
when the description list is shorter than the code list. -/
def zipDescDict (ds : List String) : List String → Nat → List (String × Desc) → Except PyErr (List (String × Desc))
  | [], _, acc => Except.ok acc
  | c :: cs, i, acc =>
    match ds[i]? with
    | none => Except.error PyErr.indexError
    | some v => zipDescDict ds cs (i + 1) (alInsert acc c (Desc.s v))

/-- `convert_subgroup_object_to_courses_dict(object, description)`.
`search` embeds the external course search reached through
`regex_search` of `"^" + object` (a collaborator: `server.routers.courses`
queries Mongo); it receives the full pattern string.  The source tests
`" or " in object and isinstance(description, list)` first and the
course-code pattern second; matching on the description shape on the
outside realises the same dispatch. -/
def convert_subgroup_object_to_courses_dict
    (search : String → List (String × String))
    (object : String) (description : Desc) : Except PyErr (List (String × Desc)) :=
  match description with
  | Desc.l ds =>
    if pyInStr " or " object then
      zipDescDict ds (pySplit " or " object) 0 []
    else if matchesCourseCodePattern object then
      Except.ok [(object, Desc.l ds)]
    else
      Except.ok ((search ("^" ++ object)).map (fun p => (p.1, Desc.s p.2)))
  | Desc.s d =>
    if matchesCourseCodePattern object then
      Except.ok [(object, Desc.s d)]
    else
      Except.ok ((search ("^" ++ object)).map (fun p => (p.1, Desc.s p.2)))

/-! ## StructureBuilder (`add_subgroup_container`, `add_specialisation`,
`add_specialisations`, `add_program_code_details`) -/

/-- The `functools.reduce` in `add_subgroup_container`: left-to-right over
`container.get("courses", {}).items()`, each step unioning (`|`) into the
accumulator the resolved dict of the current pair with courses in
`exceptions` filtered out.  (The Python step first builds a dict from the
filtered items and then unions it in; folding `alInsert` directly over the
filtered items yields the same dict.) -/
def reduceCourses (search : String → List (String × String)) (exceptions : List String)
    : List (String × Desc) → List (String × Desc) → Except PyErr (List (String × Desc))
  | [], acc => Except.ok acc
  | (obj, desc) :: rest, acc =>
    match convert_subgroup_object_to_courses_dict search obj desc with
    | Except.error e => Except.error e
    | Except.ok conv =>
      reduceCourses search exceptions rest
        (alUnion acc (conv.filter (fun p => decide (p.1 ∉ exceptions))))

/-- The container title used as content key: a gened container is retitled
"General Education", every other container keeps `container.get("title", "")`. -/
def subgroup_title (container : ContainerSpec) : String :=
  if container.type = some "gened" then "General Education"
  else container.title.getD ""

/-- The group the container is written into: a `type` containing `"rule"`
redirects it to the "Rules" group, otherwise the nominal group is kept. -/
def subgroup_target (type : String) (container : ContainerSpec) : String :=
  match container.type with
  | some t => if pyInStr "rule" t then "Rules" else type
  | none => type

/-- `add_subgroup_container(structure, type, container, exceptions)`.
Mirrors the source statement by statement (the local `title`/`type`
reassignments are the two helpers above); `structure[type]` raises
`KeyError` when the target group does not exist.  On success returns the
updated structure and the added course codes (the keys of the container
just written). -/
def add_subgroup_container (search : String → List (String × String))
    (st : Structure) (type : String) (container : ContainerSpec)
    (exceptions : List String) : Except PyErr (Structure × List String) :=
  match reduceCourses search exceptions (container.courses.getD []) [] with
  | Except.error e => Except.error e
  | Except.ok courses =>
    match alFind? st (subgroup_target type container) with
    | none => Except.error PyErr.keyError
    | some node =>
      let content : ContainerContent :=
        { UOC := container.credits_to_complete.getD 0
          courses := courses
          type := container.type.getD ""
          notes := if subgroup_target type container = "Rules"
                   then container.notes.getD "" else "" }
      Except.ok (alInsert st (subgroup_target type container)
                   { node with content := alInsert node.content (subgroup_title container) content },
                 alKeys courses)

/-- Specialisation kind from the trailing character of the code. -/
def specKind (code : String) : String :=
  if pyEndsWith code "1" then "Major"
  else if pyEndsWith code "2" then "Minor"
  else "Honours"

/-- First loop of `add_specialisation`: the containers whose title contains
"Core" (lazy `filter` + loop body, so a missing title raises `KeyError` at
the offending element), each extending the exception set with the courses
it added. -/
def corePass (search : String → List (String × String))
    : Structure → String → List String → List ContainerSpec → Except PyErr (Structure × List String)
  | st, _, exc, [] => Except.ok (st, exc)
  | st, ty, exc, c :: rest =>
    match c.title with
    | none => Except.error PyErr.keyError
    | some t =>
      if pyInStr "Core" t then
        match add_subgroup_container search st ty c exc with
        | Except.error e => Except.error e
        | Except.ok (st', new) => corePass search st' ty (exc ++ new) rest
      else corePass search st ty exc rest

/-- Second loop of `add_specialisation`: the remaining (non-"Core")
containers.  They consult the exception set but the return value of
`add_subgroup_container` is discarded, so the exception set is NOT
extended here. -/
def nonCorePass (search : String → List (String × String))
    : Structure → String → List String → List ContainerSpec → Except PyErr Structure
  | st, _, _, [] => Except.ok st
  | st, ty, exc, c :: rest =>
    match c.title with
    | none => Except.error PyErr.keyError
    | some t =>
      if pyInStr "Core" t then nonCorePass search st ty exc rest
      else
        match add_subgroup_container search st ty c exc with
        | Except.error e => Except.error e
        | Except.ok (st', _) => nonCorePass search st' ty exc rest

/-- `add_specialisation(structure, code)`.  `specDB` embeds
`specialisationsCOL.find_one({"code": code})`. -/
def add_specialisation (search : String → List (String × String))
    (specDB : String → Option Specialisation)
    (st : Structure) (code : String) : Except PyErr Structure :=
  let ty := specKind code ++ " - " ++ code
  match specDB code with
  | none => Except.error (PyErr.http 400 (code ++ " of type " ++ ty ++ " not found"))
  | some spn =>
    let st := alInsert st ty { name := spn.name, content := [] }
    match corePass search st ty [] spn.curriculum with
    | Except.error e => Except.error e
    | Except.ok (st, exc) => nonCorePass search st ty exc spn.curriculum

/-- The loop of `add_specialisations`. -/
def addSpecsList (search : String → List (String × String))
    (specDB : String → Option Specialisation)
    : Structure → List String → Except PyErr Structure
  | st, [] => Except.ok st
  | st, m :: rest =>
    match add_specialisation search specDB st m with
    | Except.error e => Except.error e
    | Except.ok st' => addSpecsList search specDB st' rest

/-- `add_specialisations(structure, spec)`: a falsy `spec` (absent or
empty string) adds nothing, otherwise the `+`-joined codes are processed
in order. -/
def add_specialisations (search : String → List (String × String))
    (specDB : String → Option Specialisation)
    (st : Structure) (spec : Option String) : Except PyErr Structure :=
  match spec with
  | none => Except.ok st
  | some s =>
    if s = "" then Except.ok st
    else addSpecsList search specDB st (if pyInStr "+" s then pySplit "+" s else [s])

/-- `add_program_code_details(structure, programCode)`.  `progDB` embeds
`programsCOL.find_one({"code": programCode})`.  The error message of the
`HTTPException` is exactly the source's: it does not mention the code. -/
def add_program_code_details (progDB : String → Option Program)
    (st : Structure) (programCode : String) : Except PyErr (Structure × Int) :=
  match progDB programCode with
  | none => Except.error (PyErr.http 400 "Program code was not found")
  | some p =>
    let st := alInsert st "General" { name := "General Program Requirements", content := [] }
    let st := alInsert st "Rules" { name := "General Program Rules", content := [] }
    Except.ok (st, p.UOC)

/-! ## GenEdResolver (`add_geneds_courses`, `add_geneds_to_structure`) -/

/-- Inner generator of the gen-ed subtraction: the course keys of every
container of one group whose title contains "core" case-insensitively, in
order. -/
def core_courses_of_group (g : StructureContainer) : List String :=
  (g.content.filter (fun p => pyInStr "core" (pyLower p.1))).flatMap
    (fun p => alKeys p.2.courses)

/-- Outer generator of the gen-ed subtraction: the above over every group
whose key contains "Major" or "Honours". -/
def gened_excluded_cores (st : Structure) : List String :=
  (st.filter (fun p => pyInStr "Major" p.1 || pyInStr "Honours" p.1)).flatMap
    (fun p => core_courses_of_group p.2)

/-- `add_geneds_courses(programCode, structure, container)`.  `pool`
embeds `get_gen_eds` (= `data/scrapers/genedPureRaw.json[programCode]`,
`KeyError` when the program is absent).  The function mutates the
structure in place, so the (possibly partially updated) structure is
returned even when an exception is raised afterwards.  The source sets
`item["courses"] = {}` unconditionally and recomputes it only when the
container carries no explicit course list; `list(set(pool) - set(cores))`
iterates in unspecified hash order, so the model keeps the pool's order
and all theorems about this dict are per-key, never about order. -/

def add_geneds_courses (pool : String → Option (List (String × String)))
    (programCode : String) (st : Structure) (container : ContainerSpec)
    : Structure × Except PyErr (List String) :=
  if container.type = some "gened" then
    match alFind? st "General" with
    | none => (st, Except.error PyErr.keyError)
    | some gen =>
      match alFind? gen.content "General Education" with
      | none => (st, Except.error PyErr.keyError)
      | some item =>
        let item1 := { item with courses := [] }
        let gen1 := { gen with content := alInsert gen.content "General Education" item1 }
        let st1 := alInsert st "General" gen1
        match container.courses with
        | some _ => (st1, Except.ok (alKeys item1.courses))
        | none =>
          match pool programCode with
          | none => (st1, Except.error PyErr.keyError)
          | some pl =>
            let excluded := gened_excluded_cores st1
            let newCourses : List (String × Desc) :=
              (pl.filter (fun p => decide (p.1 ∉ excluded))).map (fun p => (p.1, Desc.s p.2))
            let item2 := { item1 with courses := newCourses }
            let gen2 := { gen1 with content := alInsert gen1.content "General Education" item2 }
            (alInsert st1 "General" gen2, Except.ok (alKeys newCourses))
  else (st, Except.ok [])

/-- The `non_spec_data` loop of `add_geneds_to_structure`.  The whole loop
runs under `suppress(KeyError)`: a `KeyError` stops it silently, keeping
the mutations made so far; any other exception (e.g. `IndexError` from the
resolver) propagates. -/
def nsdLoop (search : String → List (String × String))
    (pool : String → Option (List (String × String))) (programCode : String)
    : Structure → List ContainerSpec → Except PyErr Structure
  | st, [] => Except.ok st
  | st, c :: rest =>
    match add_subgroup_container search st "General" c [] with
    | Except.error PyErr.keyError => Except.ok st
    | Except.error e => Except.error e
    | Except.ok (st1, _) =>
      if c.type = some "gened" then
        match add_geneds_courses pool programCode st1 c with
        | (st2, Except.error PyErr.keyError) => Except.ok st2
        | (_, Except.error e) => Except.error e
        | (st2, Except.ok _) => nsdLoop search pool programCode st2 rest
      else nsdLoop search pool programCode st1 rest

/-- `add_geneds_to_structure(structure, programCode)`.  A missing
`components` / `non_spec_data` key (modelled by `none`) is a `KeyError`
suppressed before the loop body runs. -/
def add_geneds_to_structure (search : String → List (String × String))
    (progDB : String → Option Program)
    (pool : String → Option (List (String × String)))
    (st : Structure) (programCode : String) : Except PyErr Structure :=
  match progDB programCode with
  | none => Except.error (PyErr.http 400 "Program code was not found")
  | some p =>
    match p.non_spec_data with
    | none => Except.ok st
    | some nsd => nsdLoop search pool programCode st nsd

/-- Modelled from the spec: `server.manual_fixes.apply_manual_fixes` is
not under `src/`; §6 of the spec lists it as an opaque collaborator that
patches the structure in place as the final composition step.  It is
modelled as the identity patch (no manual fix applying to the analysed
inputs). -/
def apply_manual_fixes (st : Structure) (_programCode : String) : Structure := st

/-! ## CourseListExtractor (`course_list_from_structure`) -/

/-- A Python value as walked by `__recursive_course_search`
(`str`, `int`, `list`, `dict` cover everything a structure holds). -/
inductive PyVal where
  | str (s : String)
  | int (n : Int)
  | list (xs : List PyVal)
  | dict (entries : List (String × PyVal))

/-- Python `"rule" in v["type"]` once the lookup succeeded: substring test
on a string, membership test on a list or dict, `TypeError` on an int
(only `KeyError` is suppressed by the walker, so a `TypeError` would
escape). -/
def pyContainsRule : PyVal → Except PyErr Bool
  | PyVal.str s => Except.ok (pyInStr "rule" s)
  | PyVal.list xs =>
    Except.ok (xs.any (fun x => match x with
      | PyVal.str s => decide (s = "rule")
      | _ => false))
  | PyVal.dict d => Except.ok (decide ("rule" ∈ alKeys d))
  | PyVal.int _ => Except.error PyErr.typeError

/-- `__recursive_course_search`, one loop level.  Per key/value pair: a
non-dict value is skipped; for a dict value, `v["type"]` is probed under
`suppress(KeyError)` and the pair is skipped when the lookup succeeds and
contains "rule"; otherwise, when the key contains `"courses"` the dict's
keys are appended, and the walk then recurses into the value
unconditionally (the source calls `__recursive_course_search(v)` outside
any guard). -/
def recursiveCourseSearch : List (String × PyVal) → Except PyErr (List String)
  | [] => Except.ok []
  | (k, v) :: rest =>
    match v with
    | PyVal.dict d =>
      match (match alFind? d "type" with
             | none => Except.ok false
             | some tv => pyContainsRule tv) with
      | Except.error e => Except.error e
      | Except.ok true => recursiveCourseSearch rest
      | Except.ok false =>
        match recursiveCourseSearch d with
        | Except.error e => Except.error e
        | Except.ok sub =>
          match recursiveCourseSearch rest with
          | Except.error e => Except.error e
          | Except.ok restOut =>
            Except.ok ((if pyInStr "courses" k then alKeys d else []) ++ sub ++ restOut)
    | _ => recursiveCourseSearch rest

/-- `course_list_from_structure(structure)` for a dict argument (the only
way the source calls it; the dead `isinstance` guard at the top never
fires for dicts, and the recursion only ever descends into dicts). -/
def course_list_from_structure (st : List (String × PyVal)) : Except PyErr (List String) :=
  recursiveCourseSearch st

/-! ## Encoding a typed structure as the Python object the walker sees -/

/-- A course description as a Python value. -/
def encodeDesc : Desc → PyVal
  | Desc.s v => PyVal.str v
  | Desc.l vs => PyVal.list (vs.map PyVal.str)

/-- A `ContainerContent` dict in the key order `add_subgroup_container`
writes it: UOC, courses, type, notes. -/
def encodeContent (c : ContainerContent) : PyVal :=
  PyVal.dict [("UOC", PyVal.int c.UOC),
              ("courses", PyVal.dict (c.courses.map (fun p => (p.1, encodeDesc p.2)))),
              ("type", PyVal.str c.type),
              ("notes", PyVal.str c.notes)]

/-- A `StructureContainer` dict in creation key order: name, content. -/
def encodeGroup (g : StructureContainer) : PyVal :=
  PyVal.dict [("name", PyVal.str g.name),
              ("content", PyVal.dict (g.content.map (fun p => (p.1, encodeContent p.2))))]

/-- The whole structure as the dict passed to
`course_list_from_structure`. -/
def encodeStructure (st : Structure) : List (String × PyVal) :=
  st.map (fun p => (p.1, encodeGroup p.2))

/-! ## The composed routes -/

/-- `get_structure(programCode, spec)` (route body): specialisations,
program details, gen-eds, manual fixes; any exception aborts the call with
no structure returned. -/
def get_structure (search : String → List (String × String))
    (specDB : String → Option Specialisation)
    (progDB : String → Option Program)
    (pool : String → Option (List (String × String)))
    (programCode : String) (spec : Option String) : Except PyErr (Structure × Int) :=
  match add_specialisations search specDB [] spec with
  | Except.error e => Except.error e
  | Except.ok st =>
    match add_program_code_details progDB st programCode with
    | Except.error e => Except.error e
    | Except.ok (st, uoc) =>
      match add_geneds_to_structure search progDB pool st programCode with
      | Except.error e => Except.error e
      | Except.ok st => Except.ok (apply_manual_fixes st programCode, uoc)

/-- `get_structure_course_list(programCode, spec)` (route body):
specialisations and program details only — no gen-ed step, no gen-ed pool
parameter — then the flattening walk. -/
def get_structure_course_list (search : String → List (String × String))
    (specDB : String → Option Specialisation)
    (progDB : String → Option Program)
    (programCode : String) (spec : Option String) : Except PyErr (List String) :=
  match add_specialisations search specDB [] spec with
  | Except.error e => Except.error e
  | Except.ok st =>
    match add_program_code_details progDB st programCode with
    | Except.error e => Except.error e
    | Except.ok (st, _) =>
      course_list_from_structure (encodeStructure (apply_manual_fixes st programCode))

/-! ## GraphBuilder (`proto_edges_to_edges`, `prune_edges`) -/

/-- A proto-edge dict `{original: str, courses: List[str]}`; either key may
be missing (a dict with both missing is the falsy empty dict). -/
structure ProtoEdge where
  original : Option String
  courses : Option (List String)
deriving DecidableEq

/-- An output edge `{"source": ..., "target": ...}`. -/
structure Edge where
  source : String
  target : String
deriving DecidableEq

/-- `proto_edges_to_edges(proto_edges)`.  A falsy (empty) proto-edge or an
empty `courses` list is skipped; otherwise `proto_edge["courses"]` and
`proto_edge["original"]` are unguarded lookups, so a missing key raises
`KeyError` for a non-empty proto-edge. -/
def proto_edges_to_edges : List ProtoEdge → Except PyErr (List Edge)
  | [] => Except.ok []
  | e :: rest =>
    if e.original.isNone && e.courses.isNone then proto_edges_to_edges rest
    else
      match e.courses with
      | none => Except.error PyErr.keyError
      | some cs =>
        if cs.isEmpty then proto_edges_to_edges rest
        else
          match e.original with
          | none => Except.error PyErr.keyError
          | some o =>
            match proto_edges_to_edges rest with
            | Except.error err => Except.error err
            | Except.ok es => Except.ok (cs.map (fun c => { source := c, target := o }) ++ es)

/-- `prune_edges(edges, courses)`: the stable filter keeping edges whose
endpoints are both in `courses`. -/
def prune_edges (edges : List Edge) (courses : List String) : List Edge :=
  edges.filter (fun e => decide (e.source ∈ courses) && decide (e.target ∈ courses))

/-- All course codes mentioned anywhere in a list of proto-edges: every
`original` value and every member of every `courses` list. -/
def allCoursesInProtoEdges (pes : List ProtoEdge) : List String :=
  pes.flatMap (fun e => e.original.toList ++ e.courses.getD [])

/-! ## Concrete fixtures used by the claim theorems and their witnesses -/

/-- A specialisation whose two (non-Core) containers both list COMP1511:
the source's own comment promises "the first container takes priority - no
duplicates may exist", yet the second loop of `add_specialisation`
discards the return value of `add_subgroup_container`, so the exception
set is never extended for non-Core containers. -/
def specDB_C1 : String → Option Specialisation := fun code =>
  if code = "TESTA1" then
    some { name := "Test Spec",
           curriculum := [
             { title := some "Electives A", type := some "elective",
               credits_to_complete := some 6,
               courses := some [("COMP1511", Desc.s "Programming Fundamentals")],
               notes := none },
             { title := some "Electives B", type := some "elective",
               credits_to_complete := some 6,
               courses := some [("COMP1511", Desc.s "Programming Fundamentals")],
               notes := none }] }
  else none

/-- A gened container carrying an explicit course list. -/
def cont_C2 : ContainerSpec :=
  { title := some "General Education", type := some "gened",
    credits_to_complete := some 12,
    courses := some [("GENE1000", Desc.s "Creativity")],
    notes := none }

def progDB_C2 : String → Option Program := fun pc =>
  if pc = "3778" then some { UOC := 144, non_spec_data := some [cont_C2] } else none

def pool_C2 : String → Option (List (String × String)) := fun pc =>
  if pc = "3778" then some [("GENE1000", "Creativity")] else none

/-- The computed gen-ed mapping: the pool, minus every course key of a
"core"-titled container of a Major/Honours group, values taken from the
pool.  (Stands in for Python's hash-ordered `list(set(...) - set(...))`;
only its entry set is ever asserted.) -/
def genedResolve (pl : List (String × String)) (st : Structure) : List (String × Desc) :=
  (pl.filter (fun p => decide (p.1 ∉ gened_excluded_cores st))).map
    (fun p => (p.1, Desc.s p.2))

/-- Writing `cs` into the "General Education" container of the "General"
group. -/
def setGE (st : Structure) (gen : StructureContainer) (item : ContainerContent)
    (cs : List (String × Desc)) : Structure :=
  alInsert st "General"
    { gen with
      content := alInsert gen.content "General Education" { item with courses := cs } }

def st_C2w : Structure :=
  [("Major - TESTA1",
    { name := "Test Spec",
      content := [("Core Courses",
        { UOC := 0, courses := [("ACTL3142", Desc.s "a")], type := "core", notes := "" })] }),
   ("General",
    { name := "General Program Requirements",
      content := [("General Education",
        { UOC := 12, courses := [], type := "gened", notes := "" })] })]

def cont_C2w : ContainerSpec :=
  { title := none, type := some "gened", credits_to_complete := some 12,
    courses := none, notes := none }

def pool_C2w : String → Option (List (String × String)) := fun pc =>
  if pc = "3778" then
    some [("ACTL3142", "a"), ("ADAD2610", "b"), ("ANAT2521", "c")]
  else none

/-- A specialisation curriculum holding one rule-typed container (its
title has no "Core", its `type` contains `"rule"`). -/
def specDB_C3 : String → Option Specialisation := fun code =>
  if code = "RULEA1" then
    some { name := "Rules Spec",
           curriculum := [
             { title := some "Completion Rule", type := some "info_rule",
               credits_to_complete := none,
               courses := some [], notes := some "Finish on time" }] }
  else none

def progDB_C3 : String → Option Program := fun pc =>
  if pc = "3778" then some { UOC := 144, non_spec_data := none } else none

def specDB_C3w : String → Option Specialisation := fun code =>
  if code = "COMPA1" then
    some { name := "CompSci",
           curriculum := [
             { title := some "Core Courses", type := some "core",
               credits_to_complete := some 66,
               courses := some [("COMP1511", Desc.s "Programming")],
               notes := none }] }
  else none

/-! ## Closed form of the course-list walk over encoded structures -/

/-- Python `"rule" in <description>` for the two description shapes
(substring test on a string, membership test on a list). -/
def descContainsRule : Desc → Bool
  | Desc.s v => pyInStr "rule" v
  | Desc.l vs => vs.any (fun s => decide (s = "rule"))

/-- Whether the walk skips a container's courses dict: it does when that
dict happens to hold a course keyed "type" whose description contains
"rule" (the walker probes `v["type"]` on every dict it meets). -/
def coursesDictSkipped (c : ContainerContent) : Bool :=
  match alFind? c.courses "type" with
  | some d => descContainsRule d
  | none => false

/-- What the walk contributes for one container entry of a content dict. -/
def extractContent (title : String) (c : ContainerContent) : List String :=
  if pyInStr "rule" c.type then []
  else
    (if pyInStr "courses" title then ["UOC", "courses", "type", "notes"] else []) ++
    (if coursesDictSkipped c then [] else alKeys c.courses)

/-- What the walk contributes for one group entry of the structure dict. -/
def extractGroup (key : String) (g : StructureContainer) : List String :=
  (if pyInStr "courses" key then ["name", "content"] else []) ++
  g.content.flatMap (fun p => extractContent p.1 p.2)

/-- The full walk output over an encoded structure: group by group, within
each group container by container, each non-rule container contributing
its course keys in insertion order; duplicates across containers/groups
are concatenated, never deduplicated. -/
def extractModel (st : Structure) : List String :=
  st.flatMap (fun p => extractGroup p.1 p.2)

/-- The walk exactly as the claim words it (a refinement reference, not a
source translation): skip mapping values whose `type` field contains
"rule"; when a key contains `"courses"`, append that mapping's keys and do
NOT recurse into it; recurse into every other mapping value. -/
def claimWalk : List (String × PyVal) → List String
  | [] => []
  | (k, v) :: rest =>
    match v with
    | PyVal.dict d =>
      if (match alFind? d "type" with
          | some (PyVal.str t) => pyInStr "rule" t
          | _ => false) then claimWalk rest
      else if pyInStr "courses" k then alKeys d ++ claimWalk rest
      else claimWalk d ++ claimWalk rest
    | _ => claimWalk rest

/-- All course codes sitting in some container's courses mapping of some
group of a structure. -/
def structureCourseKeys (st : Structure) : List String :=
  st.flatMap (fun p => p.2.content.flatMap (fun q => alKeys q.2.courses))

def cont_C10 : ContainerSpec :=
  { title := some "General Education", type := some "gened",
    credits_to_complete := some 12, courses := none, notes := none }

def progDB_C10 : String → Option Program := fun pc =>
  if pc = "3778" then some { UOC := 144, non_spec_data := some [cont_C10] } else none

def pool_C10 : String → Option (List (String × String)) := fun pc =>
  if pc = "3778" then some [("GENE1000", "Creativity")] else none

/-! ## Lemmas and claim theorems -/

theorem alFind?_alInsert_self {α : Type} (d : List (String × α)) (k : String) (v : α) :
    alFind? (alInsert d k v) k = some v := by
  induction d with
  | nil => simp [alInsert, alFind?]
  | cons p rest ih =>
    obtain ⟨k', v'⟩ := p
    by_cases h : k' = k
    · simp [alInsert, alFind?, h]
    · simp [alInsert, alFind?, h, ih]

theorem alFind?_alInsert_ne {α : Type} (d : List (String × α)) (k k' : String) (v : α)
    (h : k' ≠ k) : alFind? (alInsert d k v) k' = alFind? d k' := by
  induction d with
  | nil =>
    simp only [alInsert, alFind?]
    rw [if_neg (fun hh => h hh.symm)]
  | cons p rest ih =>
    obtain ⟨k0, v0⟩ := p
    by_cases h0 : k0 = k
    · subst h0
      simp only [alInsert, if_pos rfl, alFind?]
      rw [if_neg (fun hh => h hh.symm), if_neg (fun hh => h hh.symm)]
    · simp only [alInsert, if_neg h0, alFind?]
      by_cases h1 : k0 = k'
      · rw [if_pos h1, if_pos h1]
      · rw [if_neg h1, if_neg h1]
        exact ih

theorem mem_alKeys_alInsert {α : Type} (d : List (String × α)) (k k' : String) (v : α)
    (h : k' ∈ alKeys (alInsert d k v)) : k' ∈ alKeys d ∨ k' = k := by
  induction d with
  | nil =>
    simp [alInsert, alKeys] at h
    exact Or.inr h
  | cons p rest ih =>
    obtain ⟨k0, v0⟩ := p
    by_cases h0 : k0 = k
    · subst h0
      simp [alInsert, alKeys] at h ⊢
      tauto
    · simp only [alInsert, if_neg h0] at h
      simp only [alKeys, List.map_cons, List.mem_cons] at h ⊢
      rcases h with h | h
      · tauto
      · rcases ih (by simpa [alKeys] using h) with h' | h'
        · exact Or.inl (Or.inr (by simpa [alKeys] using h'))
        · exact Or.inr h'

theorem alFind?_map_snd {α β : Type} (l : List (String × α)) (f : α → β) (k : String) :
    alFind? (l.map (fun p => (p.1, f p.2))) k = (alFind? l k).map f := by
  induction l with
  | nil => simp [alFind?]
  | cons p rest ih =>
    obtain ⟨k0, v0⟩ := p
    by_cases h : k0 = k
    · simp [alFind?, h]
    · simp [alFind?, h, ih]

theorem alKeys_map_snd {α β : Type} (l : List (String × α)) (f : α → β) :
    alKeys (l.map (fun p => (p.1, f p.2))) = alKeys l := by
  simp [alKeys, List.map_map]

theorem allCourses_cons (e : ProtoEdge) (rest : List ProtoEdge) :
    allCoursesInProtoEdges (e :: rest) =
      (e.original.toList ++ e.courses.getD []) ++ allCoursesInProtoEdges rest := by
  simp [allCoursesInProtoEdges]

theorem proto_edges_mem (pes : List ProtoEdge) (es : List Edge)
    (h : proto_edges_to_edges pes = Except.ok es) :
    ∀ ed ∈ es, ed.source ∈ allCoursesInProtoEdges pes ∧
               ed.target ∈ allCoursesInProtoEdges pes := by
  induction pes generalizing es with
  | nil =>
    simp [proto_edges_to_edges] at h
    subst h
    intro ed hed
    exact absurd hed (List.not_mem_nil ed)
  | cons e rest ih =>
    intro ed hed
    have hsub : ∀ x, x ∈ allCoursesInProtoEdges rest →
        x ∈ allCoursesInProtoEdges (e :: rest) := by
      intro x hx
      rw [allCourses_cons]
      exact List.mem_append_right _ hx
    obtain ⟨oo, co⟩ := e
    rcases oo with _ | o <;> rcases co with _ | cs
    · -- original absent, courses absent: falsy dict, skipped
      simp [proto_edges_to_edges] at h
      obtain ⟨h1, h2⟩ := ih es h ed hed
      exact ⟨hsub _ h1, hsub _ h2⟩
    · -- original absent, courses present
      by_cases hne : cs.isEmpty
      · simp [proto_edges_to_edges, hne] at h
        obtain ⟨h1, h2⟩ := ih es h ed hed
        exact ⟨hsub _ h1, hsub _ h2⟩
      · simp [proto_edges_to_edges, hne] at h
    · -- original present, courses key missing: KeyError
      simp [proto_edges_to_edges] at h
    · -- both present
      by_cases hne : cs.isEmpty
      · simp [proto_edges_to_edges, hne] at h
        obtain ⟨h1, h2⟩ := ih es h ed hed
        exact ⟨hsub _ h1, hsub _ h2⟩
      · rcases hrest : proto_edges_to_edges rest with err | es'
        · simp [proto_edges_to_edges, hne, hrest] at h
        · simp [proto_edges_to_edges, hne, hrest] at h
          subst h
          rcases List.mem_append.mp hed with hin | hin
          · obtain ⟨c, hc, hceq⟩ := List.mem_map.mp hin
            subst hceq
            constructor
            · rw [allCourses_cons]
              exact List.mem_append_left _ (by simp [hc])
            · rw [allCourses_cons]
              exact List.mem_append_left _ (by simp)
          · obtain ⟨h1, h2⟩ := ih es' hrest ed hin
            exact ⟨hsub _ h1, hsub _ h2⟩

/-- C8: pruning the built edge list against the full set of courses
mentioned in the proto-edges keeps every edge, unchanged and in order. -/
theorem claim_C8_prune_after_build (pes : List ProtoEdge) (es : List Edge)
    (h : proto_edges_to_edges pes = Except.ok es) :
    prune_edges es (allCoursesInProtoEdges pes) = es := by
  have hmem := proto_edges_mem pes es h
  unfold prune_edges
  rw [List.filter_eq_self]
  intro ed hed
  have := hmem ed hed
  simp [this.1, this.2]

/-- Witness for C8 at the spec's worked example. -/
theorem claim_C8_witness :
    proto_edges_to_edges
        [{ original := some "COMP2521", courses := some ["COMP1511", "COMP1521"] }] =
      Except.ok [{ source := "COMP1511", target := "COMP2521" },
                 { source := "COMP1521", target := "COMP2521" }] ∧
    prune_edges [{ source := "COMP1511", target := "COMP2521" },
                 { source := "COMP1521", target := "COMP2521" }]
        (allCoursesInProtoEdges
          [{ original := some "COMP2521", courses := some ["COMP1511", "COMP1521"] }]) =
      [{ source := "COMP1511", target := "COMP2521" },
       { source := "COMP1521", target := "COMP2521" }] :=
  ⟨by rfl, claim_C8_prune_after_build _ _ (by rfl)⟩

/-- C4 counterexample: a proto-edge with an `original` but no `courses`
key is claimed to "contribute no edges"; the source instead evaluates the
unguarded `proto_edge["courses"]` and the whole call fails with
`KeyError`, producing no result at all (in particular not the empty edge
list the claim predicts). -/
theorem claim_C4_counterexample :
    proto_edges_to_edges [{ original := some "COMP2521", courses := none }] =
      Except.error PyErr.keyError ∧
    proto_edges_to_edges [{ original := some "COMP2521", courses := none }] ≠
      Except.ok [] := by
  constructor
  · rfl
  · intro hcontra
    simp [proto_edges_to_edges] at hcontra

/-- C4 amended: for proto-edges that carry both keys (the shape documented
in the source: `{original: str, courses: List[str]}`), `buildEdges` emits,
for each proto-edge in input order, one `{source: prerequisite, target:
original}` edge per entry of its `courses` list in list order; an empty
`courses` list (and also a fully empty, falsy proto-edge dict) contributes
no edges.  A proto-edge missing only its `courses` key is NOT skipped: it
raises `KeyError` (see the counterexample). -/
theorem claim_C4_edges (pes : List ProtoEdge)
    (h : ∀ e ∈ pes, e.original.isSome ∧ e.courses.isSome) :
    proto_edges_to_edges pes =
      Except.ok (pes.flatMap (fun e =>
        (e.courses.getD []).map (fun c => { source := c, target := e.original.getD "" }))) := by
  induction pes with
  | nil => rfl
  | cons e rest ih =>
    obtain ⟨h1, h2⟩ := h e (List.mem_cons_self e rest)
    have hrest := ih (fun e' he' => h e' (List.mem_cons_of_mem e he'))
    obtain ⟨oo, co⟩ := e
    rcases oo with _ | o
    · simp at h1
    rcases co with _ | cs
    · simp at h2
    by_cases hne : cs.isEmpty
    · have hcs : cs = [] := by simpa [List.isEmpty_iff] using hne
      subst hcs
      simp [proto_edges_to_edges, hrest]
    · simp [proto_edges_to_edges, hne, hrest]

/-- Witness for C4 at the spec's worked example: one proto-edge, two
prerequisites, two edges in order. -/
theorem claim_C4_witness :
    proto_edges_to_edges
        [{ original := some "COMP2521", courses := some ["COMP1511", "COMP1521"] }] =
      Except.ok [{ source := "COMP1511", target := "COMP2521" },
                 { source := "COMP1521", target := "COMP2521" }] := by
  have h := claim_C4_edges
    [{ original := some "COMP2521", courses := some ["COMP1511", "COMP1521"] }]
    (by decide)
  simpa using h

theorem zipDescDict_err (ds : List String) (codes : List String) (i : Nat)
    (acc : List (String × Desc)) (hne : codes ≠ [])
    (h : ds.length < i + codes.length) :
    zipDescDict ds codes i acc = Except.error PyErr.indexError := by
  induction codes generalizing i acc with
  | nil => exact absurd rfl hne
  | cons c cs ih =>
    rcases hk : ds[i]? with _ | v
    · simp [zipDescDict, hk]
    · have hi : i < ds.length := by
        by_contra hcon
        rw [List.getElem?_eq_none (Nat.le_of_not_lt hcon)] at hk
        exact absurd hk (by simp)
      have hcs : cs ≠ [] := by
        intro hnil
        subst hnil
        simp at h
        omega
      simp only [zipDescDict, hk]
      exact ih (i + 1) _ hcs (by simp only [List.length_cons] at h; omega)

theorem zipDescDict_ok (ds : List String) (codes : List String) (i : Nat)
    (acc : List (String × Desc)) (h : i + codes.length ≤ ds.length) :
    zipDescDict ds codes i acc =
      Except.ok ((codes.zip ((ds.drop i).map Desc.s)).foldl
        (fun a p => alInsert a p.1 p.2) acc) := by
  induction codes generalizing i acc with
  | nil => simp [zipDescDict]
  | cons c cs ih =>
    have hi : i < ds.length := by simp at h; omega
    have hk : ds[i]? = some ds[i] := List.getElem?_eq_getElem hi
    have hdrop : ds.drop i = ds[i] :: ds.drop (i + 1) := List.drop_eq_getElem_cons hi
    simp only [zipDescDict, hk]
    rw [ih (i + 1) _ (by simp at h ⊢; omega), hdrop]
    simp only [List.map_cons, List.zip_cons_cons, List.foldl_cons]

theorem alFind?_alInsert_isSome {α : Type} (d : List (String × α)) (a k : String) (v : α) :
    (alFind? (alInsert d a v) k).isSome ↔ k = a ∨ (alFind? d k).isSome := by
  by_cases h : k = a
  · subst h
    simp [alFind?_alInsert_self]
  · rw [alFind?_alInsert_ne d a k v h]
    simp [h]

theorem alFind?_foldl_insert_isSome {α : Type} (ps : List (String × α))
    (init : List (String × α)) (k : String) :
    (alFind? (ps.foldl (fun a p => alInsert a p.1 p.2) init) k).isSome ↔
      k ∈ ps.map Prod.fst ∨ (alFind? init k).isSome := by
  induction ps generalizing init with
  | nil => simp
  | cons p ps ih =>
    rw [List.foldl_cons, ih]
    rw [alFind?_alInsert_isSome]
    simp
    tauto

theorem alFind?_dictFromPairs_isSome {α : Type} (ps : List (String × α)) (k : String) :
    (alFind? (dictFromPairs ps) k).isSome ↔ k ∈ ps.map Prod.fst := by
  rw [dictFromPairs, alFind?_foldl_insert_isSome]
  simp [alFind?]

/-- C6: the three-way dispatch of `convert_subgroup_object_to_courses_dict`.
(1) `" or "` in the spec with a list description: the codes obtained by
splitting on `" or "` are zipped 1:1 with the descriptions (stated under
the length precondition whose violation is claim C9's subject);
(2) otherwise a spec that does not `re.match` the 4-letter+4-digit pattern
is delegated to the external search, anchored with a leading `"^"`;
(3) otherwise the single-entry mapping. -/
theorem claim_C6_dispatch (search : String → List (String × String))
    (object : String) (d : Desc) :
    (∀ ds, d = Desc.l ds → pyInStr " or " object = true →
      (pySplit " or " object).length ≤ ds.length →
      convert_subgroup_object_to_courses_dict search object d =
        Except.ok (dictFromPairs ((pySplit " or " object).zip (ds.map Desc.s))))
    ∧ ((pyInStr " or " object = false ∨ ∀ ds, d ≠ Desc.l ds) →
      matchesCourseCodePattern object = false →
      convert_subgroup_object_to_courses_dict search object d =
        Except.ok ((search ("^" ++ object)).map (fun p => (p.1, Desc.s p.2))))
    ∧ ((pyInStr " or " object = false ∨ ∀ ds, d ≠ Desc.l ds) →
      matchesCourseCodePattern object = true →
      convert_subgroup_object_to_courses_dict search object d =
        Except.ok [(object, d)]) := by
  refine ⟨?_, ?_, ?_⟩
  · intro ds hd hor hlen
    subst hd
    simp only [convert_subgroup_object_to_courses_dict, hor, if_pos]
    have h := zipDescDict_ok ds (pySplit " or " object) 0 [] (by simpa using hlen)
    rw [h]
    simp [dictFromPairs]
  · intro hcase hpat
    rcases d with v | ds
    · simp [convert_subgroup_object_to_courses_dict, hpat]
    · rcases hcase with hor | hne
      · simp [convert_subgroup_object_to_courses_dict, hor, hpat]
      · exact absurd rfl (hne ds)
  · intro hcase hpat
    rcases d with v | ds
    · simp [convert_subgroup_object_to_courses_dict, hpat]
    · rcases hcase with hor | hne
      · simp [convert_subgroup_object_to_courses_dict, hor, hpat]
      · exact absurd rfl (hne ds)

/-- Witness for C6 instantiating the disjunctive branch. -/
theorem claim_C6_witness :
    convert_subgroup_object_to_courses_dict (fun _ => [])
        "COMP1511 or COMP1521" (Desc.l ["Prog 1", "Systems 1"]) =
      Except.ok [("COMP1511", Desc.s "Prog 1"), ("COMP1521", Desc.s "Systems 1")] := by
  have h := (claim_C6_dispatch (fun _ => []) "COMP1511 or COMP1521"
      (Desc.l ["Prog 1", "Systems 1"])).1 ["Prog 1", "Systems 1"] rfl (by decide) (by decide)
  exact h.trans (congrArg Except.ok (by decide))

/-- C9: behaviour of the `" or "` branch on mismatched lengths.  A
description list shorter than the split code list hits the unguarded
`description[index]` and the call fails with `IndexError`; a longer
description list is silently truncated by the zip, and the returned
mapping covers exactly the split codes. -/
theorem claim_C9_mismatch (search : String → List (String × String))
    (object : String) (ds : List String)
    (hor : pyInStr " or " object = true) :
    (ds.length < (pySplit " or " object).length →
      convert_subgroup_object_to_courses_dict search object (Desc.l ds) =
        Except.error PyErr.indexError)
    ∧ ((pySplit " or " object).length ≤ ds.length →
      convert_subgroup_object_to_courses_dict search object (Desc.l ds) =
        Except.ok (dictFromPairs ((pySplit " or " object).zip (ds.map Desc.s)))
      ∧ ∀ c, (alFind? (dictFromPairs ((pySplit " or " object).zip (ds.map Desc.s))) c).isSome ↔
          c ∈ pySplit " or " object) := by
  constructor
  · intro hlt
    simp only [convert_subgroup_object_to_courses_dict, hor, if_pos]
    exact zipDescDict_err ds (pySplit " or " object) 0 []
      (by intro hnil; rw [hnil] at hlt; simp at hlt) (by omega)
  · intro hle
    constructor
    · simp only [convert_subgroup_object_to_courses_dict, hor, if_pos]
      have h := zipDescDict_ok ds (pySplit " or " object) 0 [] (by simpa using hle)
      rw [h]
      simp [dictFromPairs]
    · intro c
      rw [alFind?_dictFromPairs_isSome]
      rw [List.map_fst_zip]
      simpa using hle

/-- Witness for C9: a one-element description list raises IndexError, a
three-element one is truncated to the two split codes. -/
theorem claim_C9_witness :
    convert_subgroup_object_to_courses_dict (fun _ => [])
        "COMP1511 or COMP1521" (Desc.l ["Prog 1"]) =
      Except.error PyErr.indexError
    ∧ convert_subgroup_object_to_courses_dict (fun _ => [])
        "COMP1511 or COMP1521" (Desc.l ["Prog 1", "Systems 1", "Surplus"]) =
      Except.ok [("COMP1511", Desc.s "Prog 1"), ("COMP1521", Desc.s "Systems 1")] :=
  ⟨(claim_C9_mismatch (fun _ => []) "COMP1511 or COMP1521" ["Prog 1"] (by decide)).1
      (by decide),
   (((claim_C9_mismatch (fun _ => []) "COMP1511 or COMP1521"
        ["Prog 1", "Systems 1", "Surplus"] (by decide)).2 (by decide)).1).trans
      (congrArg Except.ok (by decide))⟩

/-- C7 counterexample: for the unknown program code "9999" the call does
fail fatally with the 400 error raised by `add_program_code_details`, but
its message is the fixed string "Program code was not found": it does not
carry the offending code (unlike the specialisation branch, whose message
interpolates the code). -/
theorem claim_C7_counterexample :
    get_structure (fun _ => []) (fun _ => none) (fun _ => none) (fun _ => none)
        "9999" none =
      Except.error (PyErr.http 400 "Program code was not found")
    ∧ pyInStr "9999" "Program code was not found" = false := by
  constructor
  · rfl
  · decide

/-- C7 amended: whenever the program code is absent from the record store
(and the specialisation phase itself succeeded), `get_structure` fails
with the 400 "Program code was not found" error — whose message omits the
code — and no structure value is ever returned. -/
theorem claim_C7_unknown_program (search : String → List (String × String))
    (specDB : String → Option Specialisation) (progDB : String → Option Program)
    (pool : String → Option (List (String × String)))
    (pc : String) (spec : Option String) (st1 : Structure)
    (hp : progDB pc = none)
    (hs : add_specialisations search specDB [] spec = Except.ok st1) :
    get_structure search specDB progDB pool pc spec =
      Except.error (PyErr.http 400 "Program code was not found")
    ∧ ∀ r : Structure × Int, get_structure search specDB progDB pool pc spec ≠ Except.ok r := by
  have hmain : get_structure search specDB progDB pool pc spec =
      Except.error (PyErr.http 400 "Program code was not found") := by
    simp only [get_structure, hs, add_program_code_details, hp]
  refine ⟨hmain, ?_⟩
  intro r hcontra
  rw [hmain] at hcontra
  exact absurd hcontra (by simp)

/-- Witness for C7 at a concrete empty record store. -/
theorem claim_C7_witness :
    get_structure (fun _ => []) (fun _ => none) (fun _ => none) (fun _ => none)
        "3778" none =
      Except.error (PyErr.http 400 "Program code was not found") :=
  (claim_C7_unknown_program (fun _ => []) (fun _ => none) (fun _ => none)
    (fun _ => none) "3778" none [] rfl rfl).1

theorem alInsert_alInsert_same {α : Type} (d : List (String × α)) (k : String) (v w : α) :
    alInsert (alInsert d k v) k w = alInsert d k w := by
  induction d with
  | nil => simp [alInsert]
  | cons p rest ih =>
    obtain ⟨k0, v0⟩ := p
    by_cases h0 : k0 = k
    · simp [alInsert, h0]
    · simp [alInsert, h0, ih]

/-- C1: evaluating `add_specialisation` on `specDB_C1` puts COMP1511 into
BOTH containers of the one specialisation: the exception set is extended
only in the Core loop, not in the non-Core loop, contradicting both the
claim and the source's own "no duplicates may exist" comment. -/
theorem claim_C1_duplicate_in_two_containers :
    add_specialisation (fun _ => []) specDB_C1 [] "TESTA1" =
      Except.ok [("Major - TESTA1",
        { name := "Test Spec",
          content := [
            ("Electives A",
              { UOC := 6,
                courses := [("COMP1511", Desc.s "Programming Fundamentals")],
                type := "elective", notes := "" }),
            ("Electives B",
              { UOC := 6,
                courses := [("COMP1511", Desc.s "Programming Fundamentals")],
                type := "elective", notes := "" })] })] := by
  rfl

/-- C2 counterexample: a gened container WITH an explicit course list is
first resolved normally (to `{GENE1000: ...}` — second conjunct), but
`add_geneds_courses` then unconditionally executes `item["courses"] = {}`
and, because the container has an explicit list, never recomputes it: the
container ends with an EMPTY courses mapping, not the normally-resolved
one the claim promises. -/
theorem claim_C2_counterexample :
    add_geneds_to_structure (fun _ => []) progDB_C2 pool_C2
        [("General", { name := "General Program Requirements", content := [] }),
         ("Rules", { name := "General Program Rules", content := [] })] "3778" =
      Except.ok
        [("General",
          { name := "General Program Requirements",
            content := [("General Education",
              { UOC := 12, courses := [], type := "gened", notes := "" })] }),
         ("Rules", { name := "General Program Rules", content := [] })]
    ∧ reduceCourses (fun _ => []) [] [("GENE1000", Desc.s "Creativity")] [] =
        Except.ok [("GENE1000", Desc.s "Creativity")] := by
  constructor
  · rfl
  · rfl

theorem filter_alInsert_key_false {α : Type} (d : List (String × α)) (k : String) (v : α)
    (p : String × α → Bool) (hp : ∀ w : α, p (k, w) = false) :
    (alInsert d k v).filter p = d.filter p := by
  induction d with
  | nil => simp [alInsert, hp v]
  | cons q rest ih =>
    obtain ⟨k0, v0⟩ := q
    by_cases h0 : k0 = k
    · subst h0
      simp [alInsert, List.filter_cons, hp]
    · simp [alInsert, h0, List.filter_cons, ih]

/-- Updating the "General" group never changes the Major/Honours core
subtraction set (its filter only looks at group keys containing "Major" or
"Honours"). -/
theorem gened_excluded_cores_insert_general (st : Structure) (g : StructureContainer) :
    gened_excluded_cores (alInsert st "General" g) = gened_excluded_cores st := by
  unfold gened_excluded_cores
  rw [filter_alInsert_key_false]
  intro w
  show (pyInStr "Major" "General" || pyInStr "Honours" "General") = false
  decide

theorem mem_keys_filter_key (pl : List (String × String)) (ex : List String) (X : String) :
    X ∈ alKeys (pl.filter (fun p => decide (p.1 ∉ ex))) ↔ X ∈ alKeys pl ∧ X ∉ ex := by
  simp only [alKeys]
  constructor
  · intro h
    obtain ⟨p, hp, hfst⟩ := List.mem_map.mp h
    obtain ⟨hmem, hq⟩ := List.mem_filter.mp hp
    subst hfst
    exact ⟨List.mem_map.mpr ⟨p, hmem, rfl⟩, by simpa using hq⟩
  · intro h
    obtain ⟨h1, h2⟩ := h
    obtain ⟨p, hp, hfst⟩ := List.mem_map.mp h1
    subst hfst
    exact List.mem_map.mpr ⟨p, List.mem_filter.mpr ⟨hp, by simpa using h2⟩, rfl⟩

/-- C2 amended: on a gened container under an existing "General
Education" item, `add_geneds_courses` (i) WIPES the courses of a container
carrying an explicit course list to the empty mapping (the
normally-resolved courses do not remain), and (ii) for a container with no
explicit list computes pool-minus-core-union: its key set is exactly the
pool keys minus the union of courses under "core"-titled (case-insensitive)
containers of "Major"/"Honours" groups; no excluded core course ever
appears; with no Major/Honours group present the full pool is returned. -/
theorem claim_C2_gened_resolution (pool : String → Option (List (String × String)))
    (pc : String) (st : Structure) (container : ContainerSpec)
    (gen : StructureContainer) (item : ContainerContent)
    (hty : container.type = some "gened")
    (hG : alFind? st "General" = some gen)
    (hGE : alFind? gen.content "General Education" = some item) :
    (∀ cs, container.courses = some cs →
      add_geneds_courses pool pc st container = (setGE st gen item [], Except.ok []))
    ∧ (∀ pl, container.courses = none → pool pc = some pl →
      add_geneds_courses pool pc st container =
        (setGE st gen item (genedResolve pl st), Except.ok (alKeys (genedResolve pl st)))
      ∧ (∀ X, X ∈ alKeys (genedResolve pl st) ↔
          X ∈ alKeys pl ∧ X ∉ gened_excluded_cores st)
      ∧ (∀ X, X ∈ gened_excluded_cores st → X ∉ alKeys (genedResolve pl st))
      ∧ ((∀ p ∈ st, pyInStr "Major" p.1 = false ∧ pyInStr "Honours" p.1 = false) →
          genedResolve pl st = pl.map (fun p => (p.1, Desc.s p.2)))) := by
  constructor
  · intro cs hcs
    simp only [add_geneds_courses, hty, hG, hGE, hcs, if_pos]
    unfold setGE
    simp [alKeys]
  · intro pl hcs hpool
    have hexc : gened_excluded_cores (setGE st gen item []) = gened_excluded_cores st :=
      gened_excluded_cores_insert_general st _
    refine ⟨?_, ?_, ?_, ?_⟩
    · simp only [add_geneds_courses, hty, hG, hGE, hcs, hpool, if_pos]
      unfold setGE at hexc ⊢
      rw [hexc]
      rw [alInsert_alInsert_same, alInsert_alInsert_same]
      rfl
    · intro X
      unfold genedResolve
      rw [alKeys_map_snd]
      exact mem_keys_filter_key pl _ X
    · intro X hX
      unfold genedResolve
      rw [alKeys_map_snd, mem_keys_filter_key]
      intro hcontra
      exact absurd hX hcontra.2
    · intro hno
      unfold genedResolve
      have hnil : st.filter (fun p => pyInStr "Major" p.1 || pyInStr "Honours" p.1) = [] := by
        rw [List.filter_eq_nil_iff]
        intro p hp
        obtain ⟨h1, h2⟩ := hno p hp
        simp [h1, h2]
      have hempty : gened_excluded_cores st = [] := by
        unfold gened_excluded_cores
        rw [hnil]
        rfl
      rw [hempty]
      have : pl.filter (fun p => decide (p.1 ∉ ([] : List String))) = pl := by
        rw [List.filter_eq_self]
        intro a _
        simp
      rw [this]

/-- Witness instantiating C2's computed branch at the spec's own example:
pool `{A,B,C}`, one Major group whose Core container lists `A` — the
resolved gen-ed mapping is `{B,C}`. -/
theorem claim_C2_witness :
    add_geneds_courses pool_C2w "3778" st_C2w cont_C2w =
      ([("Major - TESTA1",
         { name := "Test Spec",
           content := [("Core Courses",
             { UOC := 0, courses := [("ACTL3142", Desc.s "a")], type := "core", notes := "" })] }),
        ("General",
         { name := "General Program Requirements",
           content := [("General Education",
             { UOC := 12,
               courses := [("ADAD2610", Desc.s "b"), ("ANAT2521", Desc.s "c")],
               type := "gened", notes := "" })] })],
       Except.ok ["ADAD2610", "ANAT2521"]) := by
  have h := ((claim_C2_gened_resolution pool_C2w "3778" st_C2w cont_C2w _ _ rfl rfl rfl).2
    [("ACTL3142", "a"), ("ADAD2610", "b"), ("ANAT2521", "c")] rfl rfl).1
  exact h.trans (Prod.ext (by decide) (congrArg Except.ok (by decide)))

theorem alFind?_mem_keys {α : Type} (d : List (String × α)) (k : String) (v : α)
    (h : alFind? d k = some v) : k ∈ alKeys d := by
  induction d with
  | nil => simp [alFind?] at h
  | cons p rest ih =>
    obtain ⟨k0, v0⟩ := p
    simp only [alFind?] at h
    by_cases h0 : k0 = k
    · subst h0
      simp [alKeys]
    · rw [if_neg h0] at h
      simp only [alKeys, List.map_cons, List.mem_cons]
      exact Or.inr (by simpa [alKeys] using ih h)

theorem insert_at_found_keys {α : Type} (d : List (String × α)) (ky : String) (node v : α)
    (hf : alFind? d ky = some node) :
    ∀ k, k ∈ alKeys (alInsert d ky v) → k ∈ alKeys d := by
  intro k hk
  rcases mem_alKeys_alInsert _ _ _ _ hk with hm | he
  · exact hm
  · subst he
    exact alFind?_mem_keys _ _ node hf

/-- A successful `add_subgroup_container` call never creates a new group
key: it writes into a group that `structure[type]` already found. -/
theorem add_subgroup_container_keys (search : String → List (String × String))
    (st : Structure) (ty : String) (c : ContainerSpec) (exc : List String)
    (st' : Structure) (added : List String)
    (h : add_subgroup_container search st ty c exc = Except.ok (st', added)) :
    ∀ k, k ∈ alKeys st' → k ∈ alKeys st := by
  rw [add_subgroup_container] at h
  rcases hr : reduceCourses search exc (c.courses.getD []) [] with e | courses
  · rw [hr] at h
    exact Except.noConfusion h
  · rw [hr] at h
    rcases hf : alFind? st (subgroup_target ty c) with _ | node
    · rw [hf] at h
      exact Except.noConfusion h
    · rw [hf] at h
      have h2 := Except.ok.inj h
      injection h2 with hst hadd
      subst hst
      exact insert_at_found_keys st _ node _ hf

theorem corePass_keys (search : String → List (String × String))
    (curr : List ContainerSpec) :
    ∀ st ty exc st' exc', corePass search st ty exc curr = Except.ok (st', exc') →
      ∀ k, k ∈ alKeys st' → k ∈ alKeys st := by
  induction curr with
  | nil =>
    intro st ty exc st' exc' h k hk
    simp only [corePass, Except.ok.injEq, Prod.mk.injEq] at h
    obtain ⟨h1, _⟩ := h
    subst h1
    exact hk
  | cons c rest ih =>
    intro st ty exc st' exc' h k hk
    simp only [corePass] at h
    rcases hct : c.title with _ | t
    · simp [hct] at h
    · simp only [hct] at h
      by_cases hcore : pyInStr "Core" t
      · rw [if_pos hcore] at h
        rcases hadd : add_subgroup_container search st ty c exc with e | pr
        · simp [hadd] at h
        · obtain ⟨st1, new⟩ := pr
          simp only [hadd] at h
          exact add_subgroup_container_keys search st ty c exc st1 new hadd k
            (ih st1 ty (exc ++ new) st' exc' h k hk)
      · rw [if_neg hcore] at h
        exact ih st ty exc st' exc' h k hk

theorem nonCorePass_keys (search : String → List (String × String))
    (curr : List ContainerSpec) :
    ∀ st ty exc st', nonCorePass search st ty exc curr = Except.ok st' →
      ∀ k, k ∈ alKeys st' → k ∈ alKeys st := by
  induction curr with
  | nil =>
    intro st ty exc st' h k hk
    simp only [nonCorePass, Except.ok.injEq] at h
    subst h
    exact hk
  | cons c rest ih =>
    intro st ty exc st' h k hk
    simp only [nonCorePass] at h
    rcases hct : c.title with _ | t
    · simp [hct] at h
    · simp only [hct] at h
      by_cases hcore : pyInStr "Core" t
      · rw [if_pos hcore] at h
        exact ih st ty exc st' h k hk
      · rw [if_neg hcore] at h
        rcases hadd : add_subgroup_container search st ty c exc with e | pr
        · simp [hadd] at h
        · obtain ⟨st1, new⟩ := pr
          simp only [hadd] at h
          exact add_subgroup_container_keys search st ty c exc st1 new hadd k
            (ih st1 ty exc st' h k hk)

theorem add_specialisation_keys (search : String → List (String × String))
    (specDB : String → Option Specialisation) (st : Structure) (code : String)
    (st' : Structure) (h : add_specialisation search specDB st code = Except.ok st') :
    ∀ k, k ∈ alKeys st' → k ∈ alKeys st ∨ k = specKind code ++ " - " ++ code := by
  simp only [add_specialisation] at h
  rcases hdb : specDB code with _ | spn
  · simp [hdb] at h
  · simp only [hdb] at h
    rcases hcp : corePass search
        (alInsert st (specKind code ++ " - " ++ code) { name := spn.name, content := [] })
        (specKind code ++ " - " ++ code) [] spn.curriculum with e | pr
    · simp [hcp] at h
    · obtain ⟨st1, exc⟩ := pr
      simp only [hcp] at h
      intro k hk
      have h1 := nonCorePass_keys search spn.curriculum st1
        (specKind code ++ " - " ++ code) exc st' h k hk
      have h2 := corePass_keys search spn.curriculum _ _ _ _ _ hcp k h1
      rcases mem_alKeys_alInsert _ _ _ _ h2 with hm | he
      · exact Or.inl hm
      · exact Or.inr he

theorem string_toList_append (a b : String) : (a ++ b).toList = a.toList ++ b.toList := by
  obtain ⟨la⟩ := a
  obtain ⟨lb⟩ := b
  rfl

theorem listIsPrefix_append_self (p rest : List Char) :
    listIsPrefix p (p ++ rest) = true := by
  induction p with
  | nil => rfl
  | cons a as ih => simp [listIsPrefix, ih]

theorem listInfix_append_self (p rest : List Char) :
    listInfix p (p ++ rest) = true := by
  rcases hpr : p ++ rest with _ | ⟨c, r⟩
  · obtain ⟨hp, _⟩ := List.append_eq_nil.mp hpr
    subst hp
    rfl
  · show (listIsPrefix p (c :: r) || listInfix p r) = true
    rw [← hpr, listIsPrefix_append_self]
    rfl

theorem listInfix_append_left (n : List Char) (xs rest : List Char)
    (h : listInfix n rest = true) : listInfix n (xs ++ rest) = true := by
  induction xs with
  | nil => exact h
  | cons c cs ih =>
    show (listIsPrefix n (c :: (cs ++ rest)) || listInfix n (cs ++ rest)) = true
    rw [ih]
    simp

theorem specTy_dash (code : String) :
    pyInStr " - " (specKind code ++ " - " ++ code) = true := by
  unfold pyInStr
  rw [string_toList_append, string_toList_append]
  rw [List.append_assoc]
  exact listInfix_append_left _ _ _ (listInfix_append_self _ _)

theorem addSpecsList_keys (search : String → List (String × String))
    (specDB : String → Option Specialisation) (codes : List String) :
    ∀ st st', addSpecsList search specDB st codes = Except.ok st' →
      ∀ k, k ∈ alKeys st' → k ∈ alKeys st ∨ pyInStr " - " k = true := by
  induction codes with
  | nil =>
    intro st st' h k hk
    simp only [addSpecsList, Except.ok.injEq] at h
    subst h
    exact Or.inl hk
  | cons m rest ih =>
    intro st st' h k hk
    simp only [addSpecsList] at h
    rcases hA : add_specialisation search specDB st m with e | st1
    · simp [hA] at h
    · simp only [hA] at h
      rcases ih st1 st' h k hk with hm | hd
      · rcases add_specialisation_keys search specDB st m st1 hA k hm with hmm | heq
        · exact Or.inl hmm
        · subst heq
          exact Or.inr (specTy_dash m)
      · exact Or.inr hd

theorem add_specialisations_keys (search : String → List (String × String))
    (specDB : String → Option Specialisation) (spec : Option String)
    (st st' : Structure)
    (h : add_specialisations search specDB st spec = Except.ok st') :
    ∀ k, k ∈ alKeys st' → k ∈ alKeys st ∨ pyInStr " - " k = true := by
  cases spec with
  | none =>
    simp only [add_specialisations, Except.ok.injEq] at h
    subst h
    exact fun k hk => Or.inl hk
  | some s =>
    simp only [add_specialisations] at h
    by_cases hs : s = ""
    · rw [if_pos hs] at h
      simp only [Except.ok.injEq] at h
      subst h
      exact fun k hk => Or.inl hk
    · rw [if_neg hs] at h
      exact addSpecsList_keys search specDB _ st st' h

/-- C3 counterexample: a rule-typed container coming from a
specialisation's curriculum is NOT placed under the "Rules" group —
`add_specialisations` runs before `add_program_code_details` creates
"General"/"Rules", so `structure["Rules"]` raises `KeyError` and the whole
`get_structure` call dies, instead of the claimed placement. -/
theorem claim_C3_counterexample :
    get_structure (fun _ => []) specDB_C3 progDB_C3 (fun _ => none)
        "3778" (some "RULEA1") =
      Except.error PyErr.keyError := by
  rfl

/-- C3 amended: in every `get_structure`-style pipeline, a successful
specialisation phase (which is possible only when no specialisation
container was redirected to a then-nonexistent group) leaves "General" and
"Rules" absent, and the program-details step then creates exactly these
two groups with empty content — so both groups are created exactly once,
before any program-level (non-spec-data) container is added to them; a
rule-typed container arriving from a specialisation's curriculum instead
aborts the call with `KeyError` (see the counterexample). -/
theorem claim_C3_groups (search : String → List (String × String))
    (specDB : String → Option Specialisation) (spec : Option String) (st1 : Structure)
    (hs : add_specialisations search specDB [] spec = Except.ok st1) :
    ("General" ∉ alKeys st1 ∧ "Rules" ∉ alKeys st1)
    ∧ ∀ progDB pc st2 uoc,
        add_program_code_details progDB st1 pc = Except.ok (st2, uoc) →
        alFind? st2 "General" =
          some { name := "General Program Requirements", content := [] }
        ∧ alFind? st2 "Rules" = some { name := "General Program Rules", content := [] } := by
  have hkeys := add_specialisations_keys search specDB spec [] st1 hs
  constructor
  · constructor
    · intro hcon
      rcases hkeys "General" hcon with hm | hd
      · simp [alKeys] at hm
      · exact absurd hd (by decide)
    · intro hcon
      rcases hkeys "Rules" hcon with hm | hd
      · simp [alKeys] at hm
      · exact absurd hd (by decide)
  · intro progDB pc st2 uoc h2
    simp only [add_program_code_details] at h2
    rcases hdb : progDB pc with _ | p
    · simp [hdb] at h2
    · simp only [hdb, Except.ok.injEq, Prod.mk.injEq] at h2
      obtain ⟨hst2, _⟩ := h2
      subst hst2
      constructor
      · rw [alFind?_alInsert_ne _ _ _ _ (by decide)]
        exact alFind?_alInsert_self _ _ _
      · exact alFind?_alInsert_self _ _ _

/-- Witness for C3 at a concrete one-specialisation database. -/
theorem claim_C3_witness :
    ("General" ∉ alKeys
        [("Major - COMPA1",
          ({ name := "CompSci",
             content := [("Core Courses",
               { UOC := 66, courses := [("COMP1511", Desc.s "Programming")],
                 type := "core", notes := "" })] } : StructureContainer))]
      ∧ "Rules" ∉ alKeys
        [("Major - COMPA1",
          ({ name := "CompSci",
             content := [("Core Courses",
               { UOC := 66, courses := [("COMP1511", Desc.s "Programming")],
                 type := "core", notes := "" })] } : StructureContainer))])
    ∧ alFind?
        [("Major - COMPA1",
          ({ name := "CompSci",
             content := [("Core Courses",
               { UOC := 66, courses := [("COMP1511", Desc.s "Programming")],
                 type := "core", notes := "" })] } : StructureContainer)),
         ("General", { name := "General Program Requirements", content := [] }),
         ("Rules", { name := "General Program Rules", content := [] })] "General" =
        some { name := "General Program Requirements", content := [] } := by
  have h := claim_C3_groups (fun _ => []) specDB_C3w (some "COMPA1") _ rfl
  exact ⟨h.1, (h.2 progDB_C3 "3778" _ 144 rfl).1⟩

theorem pyContainsRule_encodeDesc (d : Desc) :
    pyContainsRule (encodeDesc d) = Except.ok (descContainsRule d) := by
  cases d with
  | s v => rfl
  | l vs =>
    simp only [encodeDesc, pyContainsRule, descContainsRule, Except.ok.injEq]
    induction vs with
    | nil => rfl
    | cons v rest ih => simp [List.any_cons, ih]

theorem rcs_encoded_courses (cl : List (String × Desc)) :
    recursiveCourseSearch (cl.map (fun p => (p.1, encodeDesc p.2))) = Except.ok [] := by
  induction cl with
  | nil => simp [recursiveCourseSearch]
  | cons p rest ih =>
    obtain ⟨k, d⟩ := p
    cases d with
    | s v => simpa [recursiveCourseSearch, encodeDesc] using ih
    | l vs => simpa [recursiveCourseSearch, encodeDesc] using ih

theorem rcs_content_dict (c : ContainerContent) :
    recursiveCourseSearch
        [("UOC", PyVal.int c.UOC),
         ("courses", PyVal.dict (c.courses.map (fun p => (p.1, encodeDesc p.2)))),
         ("type", PyVal.str c.type),
         ("notes", PyVal.str c.notes)] =
      Except.ok (if coursesDictSkipped c then [] else alKeys c.courses) := by
  have htail : recursiveCourseSearch
      [("type", PyVal.str c.type), ("notes", PyVal.str c.notes)] = Except.ok [] := by
    simp [recursiveCourseSearch]
  have hfind : alFind? (c.courses.map (fun p => (p.1, encodeDesc p.2))) "type" =
      (alFind? c.courses "type").map encodeDesc := alFind?_map_snd c.courses encodeDesc "type"
  have hcc : pyInStr "courses" "courses" = true := by decide
  rcases hf : alFind? c.courses "type" with _ | dsc
  · rw [hf] at hfind
    simp only [recursiveCourseSearch, hfind, Option.map_none, htail,
      rcs_encoded_courses, coursesDictSkipped, hf, hcc]
    simp [alKeys_map_snd]
  · rw [hf] at hfind
    by_cases hdr : descContainsRule dsc
    · simp only [recursiveCourseSearch, hfind, Option.map_some,
        hdr, htail, coursesDictSkipped, hf, hcc]
      simp [pyContainsRule_encodeDesc, hdr]
    · simp only [recursiveCourseSearch, hfind, Option.map_some,
        hdr, htail, rcs_encoded_courses,
        coursesDictSkipped, hf, hcc]
      simp only [Bool.not_eq_true] at hdr
      simp [pyContainsRule_encodeDesc, hdr, alKeys_map_snd]

theorem rcs_content_list (content : List (String × ContainerContent)) :
    recursiveCourseSearch (content.map (fun p => (p.1, encodeContent p.2))) =
      Except.ok (content.flatMap (fun p => extractContent p.1 p.2)) := by
  induction content with
  | nil => simp [recursiveCourseSearch]
  | cons p rest ih =>
    obtain ⟨title, c⟩ := p
    have hfind : alFind?
        [("UOC", PyVal.int c.UOC),
         ("courses", PyVal.dict (c.courses.map (fun q => (q.1, encodeDesc q.2)))),
         ("type", PyVal.str c.type),
         ("notes", PyVal.str c.notes)] "type" = some (PyVal.str c.type) := by
      simp [alFind?]
    rw [List.map_cons]
    generalize hg : List.map (fun p => (p.1, encodeContent p.2)) rest = restEnc at ih
    by_cases hr : pyInStr "rule" c.type
    · simp only [recursiveCourseSearch, encodeContent, hfind, pyContainsRule, hr, ih]
      simp [extractContent, hr]
    · simp only [Bool.not_eq_true] at hr
      simp only [recursiveCourseSearch, encodeContent, hfind, pyContainsRule, hr,
        rcs_content_dict, ih]
      simp [extractContent, hr, alKeys, List.append_assoc]

theorem rcs_group (g : StructureContainer) :
    recursiveCourseSearch
        [("name", PyVal.str g.name),
         ("content", PyVal.dict (g.content.map (fun p => (p.1, encodeContent p.2))))] =
      Except.ok (g.content.flatMap (fun p => extractContent p.1 p.2)) := by
  have hfind : alFind? (g.content.map (fun p => (p.1, encodeContent p.2))) "type" =
      (alFind? g.content "type").map encodeContent :=
    alFind?_map_snd g.content encodeContent "type"
  have hskip : (match alFind? (g.content.map (fun p => (p.1, encodeContent p.2))) "type" with
      | none => Except.ok false
      | some tv => pyContainsRule tv) = Except.ok false := by
    rw [hfind]
    rcases hf : alFind? g.content "type" with _ | c
    · rfl
    · simp [pyContainsRule, encodeContent, alKeys]
  have hnc : pyInStr "courses" "content" = false := by decide
  simp only [recursiveCourseSearch, hskip, rcs_content_list]
  simp [hnc]

/-- The walk of `course_list_from_structure` over any encoded structure
succeeds and returns exactly the `extractModel` closed form. -/
theorem extract_encode (st : Structure) :
    recursiveCourseSearch (encodeStructure st) = Except.ok (extractModel st) := by
  induction st with
  | nil => simp [encodeStructure, recursiveCourseSearch, extractModel]
  | cons p rest ih =>
    obtain ⟨key, g⟩ := p
    rw [show encodeStructure ((key, g) :: rest) =
      (key, encodeGroup g) :: encodeStructure rest from rfl]
    have hfind : alFind?
        [("name", PyVal.str g.name),
         ("content", PyVal.dict (g.content.map (fun p => (p.1, encodeContent p.2))))]
        "type" = none := by
      simp [alFind?]
    simp only [recursiveCourseSearch, encodeGroup, hfind, rcs_group, ih]
    simp [extractModel, extractGroup, alKeys, List.append_assoc]

/-- C5 counterexample: on a mapping reached under a `"courses"` key the
source walk DOES recurse further (the source calls
`__recursive_course_search(v)` unconditionally): here the nested dict
under "Xcourses" is also visited and "ANAT2521" is emitted after
"Xcourses", while the claim's algorithm (append the keys "without further
recursing into it") stops at ["Xcourses"]. -/
theorem rcs_nil : recursiveCourseSearch [] = Except.ok [] := by
  simp [recursiveCourseSearch]

theorem rcs_cons_str (k s : String) (rest : List (String × PyVal)) :
    recursiveCourseSearch ((k, PyVal.str s) :: rest) = recursiveCourseSearch rest := by
  simp [recursiveCourseSearch]

theorem rcs_cons_dict (k : String) (d rest : List (String × PyVal))
    (hty : alFind? d "type" = none)
    (sub restOut : List String)
    (hsub : recursiveCourseSearch d = Except.ok sub)
    (hrest : recursiveCourseSearch rest = Except.ok restOut) :
    recursiveCourseSearch ((k, PyVal.dict d) :: rest) =
      Except.ok ((if pyInStr "courses" k then alKeys d else []) ++ sub ++ restOut) := by
  simp [recursiveCourseSearch, hty, hsub, hrest]

theorem claimWalk_nil : claimWalk [] = [] := by
  simp [claimWalk]

theorem claimWalk_cons_dict_courses (k : String) (d rest : List (String × PyVal))
    (hty : alFind? d "type" = none) (hk : pyInStr "courses" k = true) :
    claimWalk ((k, PyVal.dict d) :: rest) = alKeys d ++ claimWalk rest := by
  simp [claimWalk, hty, hk]

theorem claim_C5_counterexample :
    course_list_from_structure
        [("courses", PyVal.dict [("Xcourses", PyVal.dict [("ANAT2521", PyVal.str "d")])])] =
      Except.ok ["Xcourses", "ANAT2521"]
    ∧ claimWalk
        [("courses", PyVal.dict [("Xcourses", PyVal.dict [("ANAT2521", PyVal.str "d")])])] =
      ["Xcourses"] := by
  have hk1 : pyInStr "courses" "Xcourses" = true := by decide
  have hk2 : pyInStr "courses" "courses" = true := by decide
  have h1 : recursiveCourseSearch [("ANAT2521", PyVal.str "d")] = Except.ok [] :=
    (rcs_cons_str "ANAT2521" "d" []).trans rcs_nil
  have h2 : recursiveCourseSearch [("Xcourses", PyVal.dict [("ANAT2521", PyVal.str "d")])] =
      Except.ok ["ANAT2521"] := by
    have h := rcs_cons_dict "Xcourses" [("ANAT2521", PyVal.str "d")] []
      rfl [] [] h1 rcs_nil
    exact h.trans (by rw [hk1]; rfl)
  constructor
  · show recursiveCourseSearch _ = _
    have h := rcs_cons_dict "courses" [("Xcourses", PyVal.dict [("ANAT2521", PyVal.str "d")])] []
      rfl ["ANAT2521"] [] h2 rcs_nil
    exact h.trans (by rw [hk2]; rfl)
  · have h := claimWalk_cons_dict_courses "courses"
      [("Xcourses", PyVal.dict [("ANAT2521", PyVal.str "d")])] [] rfl hk2
    exact h.trans (by rw [claimWalk_nil]; rfl)

/-- C5 amended: `course_list_from_structure` walks the structure
depth-first in insertion order, skips every mapping whose `type` field
contains "rule", appends the keys of a mapping reached under a
`"courses"`-containing key AND STILL RECURSES into it (on structures built
by this backend the recursion contributes nothing, since course
descriptions are plain strings/lists); duplicates across containers and
groups are concatenated, never deduplicated.  `extractModel` is that
closed form, group by group and container by container. -/
theorem claim_C5_extraction (st : Structure) :
    course_list_from_structure (encodeStructure st) = Except.ok (extractModel st) :=
  extract_encode st

theorem extractModel_mem (st : Structure) (X : String)
    (hX : X ∈ extractModel st) (hpat : matchesCourseCodePattern X = true) :
    X ∈ structureCourseKeys st := by
  unfold extractModel at hX
  rw [List.mem_flatMap] at hX
  obtain ⟨p, hp, hXp⟩ := hX
  unfold extractGroup at hXp
  rcases List.mem_append.mp hXp with h1 | h2
  · split at h1
    · simp at h1
      rcases h1 with rfl | rfl <;> exact absurd hpat (by decide)
    · simp at h1
  · rw [List.mem_flatMap] at h2
    obtain ⟨q, hq, hXq⟩ := h2
    unfold extractContent at hXq
    split at hXq
    · simp at hXq
    · rcases List.mem_append.mp hXq with h3 | h4
      · split at h3
        · simp at h3
          rcases h3 with rfl | rfl | rfl | rfl <;> exact absurd hpat (by decide)
        · simp at h3
      · split at h4
        · simp at h4
        · unfold structureCourseKeys
          rw [List.mem_flatMap]
          refine ⟨p, hp, ?_⟩
          rw [List.mem_flatMap]
          exact ⟨q, hq, h4⟩

theorem structureCourseKeys_insert (st : Structure) (k : String) (v : StructureContainer)
    (hv : v.content = []) :
    ∀ X, X ∈ structureCourseKeys (alInsert st k v) → X ∈ structureCourseKeys st := by
  induction st with
  | nil =>
    intro X hX
    simp [alInsert, structureCourseKeys, hv] at hX
  | cons p rest ih =>
    obtain ⟨k0, g⟩ := p
    intro X hX
    by_cases h0 : k0 = k
    · subst h0
      rw [show alInsert ((k0, g) :: rest) k0 v = (k0, v) :: rest from by
        simp [alInsert]] at hX
      simp only [structureCourseKeys, List.flatMap_cons, hv, List.flatMap_nil,
        List.nil_append] at hX
      simp only [structureCourseKeys, List.flatMap_cons]
      exact List.mem_append_right _ hX
    · simp only [alInsert, if_neg h0] at hX
      simp only [structureCourseKeys, List.flatMap_cons] at hX ⊢
      rcases List.mem_append.mp hX with h1 | h2
      · exact List.mem_append_left _ h1
      · exact List.mem_append_right _ (ih X h2)

/-- C10: `get_structure_course_list` composes only the specialisation and
program-detail steps (it takes no gen-ed pool at all and never calls the
gen-ed resolution), so any well-formed course code that sits in no
container of the specialisation-built structure — in particular a course
living only in the program's gen-ed pool — never appears in the returned
course list. -/
theorem claim_C10_no_geneds (search : String → List (String × String))
    (specDB : String → Option Specialisation) (progDB : String → Option Program)
    (pc : String) (spec : Option String) (st1 : Structure) (cs : List String) (X : String)
    (hs : add_specialisations search specDB [] spec = Except.ok st1)
    (hl : get_structure_course_list search specDB progDB pc spec = Except.ok cs)
    (hpat : matchesCourseCodePattern X = true)
    (hnot : X ∉ structureCourseKeys st1) :
    X ∉ cs := by
  intro hXcs
  simp only [get_structure_course_list, hs] at hl
  rcases hdb : progDB pc with _ | p
  · simp [add_program_code_details, hdb] at hl
  · simp only [add_program_code_details, hdb] at hl
    simp only [apply_manual_fixes, course_list_from_structure] at hl
    rw [extract_encode] at hl
    simp only [Except.ok.injEq] at hl
    subst hl
    have hX2 := extractModel_mem _ X hXcs hpat
    have hX1 := structureCourseKeys_insert _ "Rules" _ rfl X hX2
    have hX0 := structureCourseKeys_insert _ "General" _ rfl X hX1
    exact absurd hX0 hnot

/-- Witness for C10 at concrete inputs: for the same program and
specialisation, `get_structure` resolves GENE1000 into the "General
Education" container (third conjunct), yet `get_structure_course_list`
returns only the specialisation's COMP1511, and the pool-only GENE1000 is
absent from it by `claim_C10_no_geneds`. -/
theorem claim_C10_witness :
    get_structure_course_list (fun _ => []) specDB_C3w progDB_C10 "3778" (some "COMPA1") =
      Except.ok ["COMP1511"]
    ∧ "GENE1000" ∉ (["COMP1511"] : List String)
    ∧ (match get_structure (fun _ => []) specDB_C3w progDB_C10 pool_C10
          "3778" (some "COMPA1") with
       | Except.ok (st, _) =>
         match alFind? st "General" with
         | some gen =>
           match alFind? gen.content "General Education" with
           | some item => alKeys item.courses
           | none => []
         | none => []
       | _ => []) = ["GENE1000"] := by
  have hcl : get_structure_course_list (fun _ => []) specDB_C3w progDB_C10
      "3778" (some "COMPA1") = Except.ok ["COMP1511"] := by
    have h1 : get_structure_course_list (fun _ => []) specDB_C3w progDB_C10
        "3778" (some "COMPA1") =
      course_list_from_structure (encodeStructure
        [("Major - COMPA1",
          { name := "CompSci",
            content := [("Core Courses",
              { UOC := 66, courses := [("COMP1511", Desc.s "Programming")],
                type := "core", notes := "" })] }),
         ("General", { name := "General Program Requirements", content := [] }),
         ("Rules", { name := "General Program Rules", content := [] })]) := rfl
    rw [h1]
    exact (extract_encode _).trans (congrArg Except.ok (by decide))
  refine ⟨hcl, ?_, ?_⟩
  · exact claim_C10_no_geneds (fun _ => []) specDB_C3w progDB_C10 "3778" (some "COMPA1")
      [("Major - COMPA1",
        { name := "CompSci",
          content := [("Core Courses",
            { UOC := 66, courses := [("COMP1511", Desc.s "Programming")],
              type := "core", notes := "" })] })]
      ["COMP1511"] "GENE1000" rfl hcl (by decide) (by decide)
  · rfl
